import Mathlib

/-!
Verification of the agent orchestration core of a Go CLI assistant.

Go strings are modelled as `List Char` (one `Char` per byte/rune; every
operation the embedded code performs is byte-uniform or ASCII, so the two
views coincide on the inputs of interest). Go `map[string]string` values
are modelled as association lists with pairwise-distinct keys; the embedded
functions enumerate keys in sorted order exactly as the source does via
`sort.Strings`. External effects (LLM calls, subprocess execution, the
filesystem, `json.Unmarshal`) are oracle parameters of the embedded
functions; everything else is translated directly from the source.
-/

namespace DmCli

/-- A Go string, viewed as its sequence of characters. -/
abbrev GoString := List Char

/-- Coerce a Lean string literal to the Go string model. -/
def goStr (s : String) : GoString := s.data

/-- Whitespace predicate used by `strings.TrimSpace` (ASCII fragment of
`unicode.IsSpace`). -/
def isGoSpace (c : Char) : Bool :=
  c == ' ' || c == '\t' || c == '\n' || c == '\x0b' || c == '\x0c' || c == '\r'

/-- Model of Go `strings.TrimSpace`. -/
def goTrimSpace (s : GoString) : GoString :=
  ((s.dropWhile isGoSpace).reverse.dropWhile isGoSpace).reverse

/-- Model of Go `strings.ToLower` (ASCII case mapping). -/
def goToLower (s : GoString) : GoString := s.map Char.toLower

/-- Model of Go `strings.Join` with a separator. -/
def goJoin (parts : List GoString) (sep : GoString) : GoString :=
  List.intercalate sep parts

/-- estimateTokens from internal/app/ask_helpers.go: `len(s) / 4`. -/
def estimateTokens (s : GoString) : Nat := s.length / 4

/-- The `for` loop inside trimToTokenBudget (ask_helpers.go lines 154-161):
while the prompt plus previous-prompts block is over budget and the block is
non-empty, drop through the first newline (or drop everything if none). -/
def dropPreviousLines (prompt : GoString) (previousBlock : GoString) (budget : Nat) :
    GoString :=
  if _hcond : estimateTokens prompt + estimateTokens previousBlock > budget ∧
      previousBlock.length > 0 then
    match hidx : previousBlock.findIdx? (· == '\n') with
    | none => []
    | some idx => dropPreviousLines prompt (previousBlock.drop (idx + 1)) budget
  else
    previousBlock
termination_by previousBlock.length
decreasing_by
  simp only [List.length_drop]
  omega

/-- trimToTokenBudget from internal/app/ask_helpers.go: trims the session
block, then previous-prompts lines, to fit the token budget; the prompt is
never touched. -/
def trimToTokenBudget (prompt sessionBlock previousBlock : GoString) (budget : Nat) :
    GoString × GoString :=
  let total := estimateTokens prompt + estimateTokens sessionBlock +
    estimateTokens previousBlock
  if total ≤ budget then
    (sessionBlock, previousBlock)
  else if estimateTokens prompt + estimateTokens previousBlock > budget then
    ([], dropPreviousLines prompt previousBlock budget)
  else
    let excess := total - budget
    let charsToDrop := excess * 4
    if charsToDrop ≥ sessionBlock.length then
      ([], previousBlock)
    else
      let s1 := sessionBlock.drop charsToDrop
      let s2 :=
        match s1.findIdx? (· == '\n') with
        | some idx => s1.drop (idx + 1)
        | none => s1
      (s2, previousBlock)

/-- promptTokenBudget from internal/app/ask_helpers.go. -/
def promptTokenBudget : Nat := 20000

/-- A Go `map[string]string`, modelled as an association list with pairwise
distinct keys; iteration order of the underlying list is arbitrary, mirroring
Go's randomized map iteration. -/
abbrev GoMap := List (GoString × GoString)

/-- Go map indexing `m[k]` (zero value `""` when the key is absent). -/
def lookupGo (m : GoMap) (k : GoString) : GoString := (List.lookup k m).getD []

/-- The keys of a Go map, in the underlying iteration order. -/
def goMapKeys (m : GoMap) : List GoString := m.map Prod.fst

/-- Model of Go `sort.Strings`: ascending lexicographic order. -/
def sortStrings (keys : List GoString) : List GoString :=
  keys.insertionSort (· ≤ ·)

/-- The loop body of pluginArgsToPS for one (sorted) key: switch-style
parameters (`"true"` or empty value) emit just the dash-prefixed name,
`"false"` values are omitted entirely, anything else emits name and value. -/
def pluginArgTokens (m : GoMap) (k : GoString) : List GoString :=
  let v := goTrimSpace (lookupGo m k)
  let paramName := if k.head? = some '-' then k else '-' :: k
  let lv := goToLower v
  if lv = goStr "true" ∨ lv = [] then [paramName]
  else if lv = goStr "false" then []
  else [paramName, v]

/-- pluginArgsToPS from internal/app/ask_helpers.go: converts a plugin
argument map into a PowerShell-style token list, enumerating keys in sorted
order. -/
def pluginArgsToPS (m : GoMap) : List GoString :=
  if m.isEmpty then []
  else ((sortStrings (goMapKeys m)).map (pluginArgTokens m)).flatten

/-- formatPluginArgs from internal/app/ask_helpers.go: `-key value` pairs in
sorted key order, space separated. -/
def formatPluginArgs (m : GoMap) : GoString :=
  if m.isEmpty then []
  else
    goJoin ((sortStrings (goMapKeys m)).map (fun k => '-' :: (k ++ ' ' :: lookupGo m k)))
      (goStr " ")

/-- The filter applied by formatToolArgs: empty, `"<nil>"` and `"null"`
values (after trimming, case-insensitively) are dropped. -/
def keepToolArg (v : GoString) : Bool :=
  let v' := goTrimSpace v
  let lc := goToLower v'
  ¬(v' = [] ∨ lc = goStr "<nil>" ∨ lc = goStr "null")

/-- formatToolArgs from internal/app/ask_helpers.go: `key=value` pairs for
kept values, in sorted key order, comma separated. -/
def formatToolArgs (m : GoMap) : GoString :=
  if m.isEmpty then []
  else
    let keys := (goMapKeys m).filter (fun k => keepToolArg (lookupGo m k))
    if keys.isEmpty then []
    else goJoin ((sortStrings keys).map (fun k => k ++ '=' :: lookupGo m k)) (goStr ", ")

/-- DecisionResult from internal/agent/agent.go (provider/model echo fields
included). -/
structure DecisionResult where
  action : GoString := []
  answer : GoString := []
  plugin : GoString := []
  pluginArgs : GoMap := []
  tool : GoString := []
  toolArgs : GoMap := []
  args : List GoString := []
  reason : GoString := []
  functionDescription : GoString := []
  provider : GoString := []
  model : GoString := []
deriving DecidableEq

/-- decisionSignature from internal/app/ask.go: canonical signature of a
decision (action kind, target, canonicalized arguments); empty for the
answer/default case. -/
def decisionSignature (d : DecisionResult) : GoString :=
  if d.action = goStr "run_plugin" then
    let argsPart := formatPluginArgs d.pluginArgs
    let argsPart := if argsPart = [] then goJoin d.args (goStr " ") else argsPart
    goStr "run_plugin|" ++ goTrimSpace d.plugin ++ '|' :: argsPart
  else if d.action = goStr "run_tool" then
    goStr "run_tool|" ++ goTrimSpace d.tool ++ '|' :: formatToolArgs d.toolArgs
  else if d.action = goStr "create_function" then
    goStr "create_function|" ++ goTrimSpace d.functionDescription
  else []

/-- psNamedArg from the plugin execution harness. -/
structure PsNamedArg where
  name : GoString
  value : GoString := []
  isSwitch : Bool := false
deriving DecidableEq

/-- looksLikePowerShellNamedToken from the plugin execution harness: a
trimmed token is a named/flag token when it starts with a dash, is not a
bare dash, and (treating negative numbers as values) its second character is
neither a digit nor a period. -/
def looksLikePowerShellNamedToken (v : GoString) : Bool :=
  let token := goTrimSpace v
  if token.head? ≠ some '-' ∨ token = goStr "-" then false
  else
    match token with
    | _ :: ch :: _ => if ('0' ≤ ch ∧ ch ≤ '9') ∨ ch = '.' then false else true
    | _ => true

/-- Model of Go `strings.TrimLeft(s, "-")`. -/
def dropLeadingDashes (s : GoString) : GoString := s.dropWhile (· == '-')

/-- splitPowerShellSplatArgs from the plugin execution harness: walks the
token list, collecting named parameters (consuming a following value token
when it does not itself look like a flag, otherwise recording a switch) and
keeping everything else positional. -/
def splitPowerShellSplatArgs : List GoString → List PsNamedArg × List GoString
  | [] => ([], [])
  | [a] =>
    let current := goTrimSpace a
    if ¬looksLikePowerShellNamedToken current then ([], [a])
    else
      let name := dropLeadingDashes current
      if name = [] then ([], [a])
      else ([{ name := name, isSwitch := true }], [])
  | a :: b :: rest =>
    let current := goTrimSpace a
    if ¬looksLikePowerShellNamedToken current then
      let np := splitPowerShellSplatArgs (b :: rest)
      (np.1, a :: np.2)
    else
      let name := dropLeadingDashes current
      if name = [] then
        let np := splitPowerShellSplatArgs (b :: rest)
        (np.1, a :: np.2)
      else if ¬looksLikePowerShellNamedToken b then
        let np := splitPowerShellSplatArgs rest
        ({ name := name, value := b } :: np.1, np.2)
      else
        let np := splitPowerShellSplatArgs (b :: rest)
        ({ name := name, isSwitch := true } :: np.1, np.2)

/-- The claim's characterization of a flag token, taken literally: a leading
dash not followed by a digit. -/
def claimFlagHeuristic (v : GoString) : Bool :=
  match v with
  | '-' :: rest =>
    match rest with
    | c :: _ => if '0' ≤ c ∧ c ≤ '9' then false else true
    | [] => true
  | _ => false

/-- askActionRecord from internal/app/ask.go. -/
structure AskActionRecord where
  step : Nat := 0
  action : GoString := []
  target : GoString := []
  args : GoString := []
  result : GoString := []
deriving DecidableEq

/-- askMaxSteps from internal/app/ask.go. -/
def askMaxSteps : Nat := 4

/-- Observable outcome of one turn of runAskOnceWithSession (the writer
event it terminates with, together with the exit path taken). -/
inductive TurnOutcome where
  | decisionError
  | answered (text : GoString)
  | loopDetected (text : GoString)
  | stepEnded (code : Int)
  | stepsExhausted
deriving DecidableEq

/-- The per-turn planning loop of runAskOnceWithSession (internal/app/ask.go
lines 112-193). The decision provider (LLM round-trip) and the three action
handlers (handleRunPlugin / handleRunTool / handleCreateFunction, which
perform confirmation and subprocess I/O) are oracle parameters: `decideStep`
maps the step number and in-turn history to the decision (or a decision
error), `handle` returns the updated history, the shouldContinue flag and
the exit code. Returns the turn outcome and the list of decisions that were
dispatched to a handler, in step order. -/
def runAskLoop (decideStep : Nat → List AskActionRecord → Option DecisionResult)
    (handle : Nat → DecisionResult → List AskActionRecord →
      List AskActionRecord × Bool × Int) :
    Nat → Nat → List GoString → List AskActionRecord →
      TurnOutcome × List (Nat × DecisionResult)
  | 0, _, _, _ => (.stepsExhausted, [])
  | remaining + 1, step, seen, hist =>
    match decideStep step hist with
    | none => (.decisionError, [])
    | some d =>
      if d.action = goStr "answer" ∨ goTrimSpace d.action = [] then
        (.answered d.answer, [])
      else
        let sig := decisionSignature d
        if sig ≠ [] ∧ sig ∈ seen then (.loopDetected d.answer, [])
        else
          let seen' := if sig ≠ [] then sig :: seen else seen
          if d.action = goStr "run_plugin" ∨ d.action = goStr "run_tool" ∨
              d.action = goStr "create_function" then
            let hb := handle step d hist
            if hb.2.1 then
              let rest := runAskLoop decideStep handle remaining (step + 1) seen' hb.1
              (rest.1, (step, d) :: rest.2)
            else (.stepEnded hb.2.2, [(step, d)])
          else (.answered d.answer, [])

/-- One full turn: up to askMaxSteps steps starting from step 1 with empty
signature set and empty in-turn history. -/
def runAskOnce (decideStep : Nat → List AskActionRecord → Option DecisionResult)
    (handle : Nat → DecisionResult → List AskActionRecord →
      List AskActionRecord × Bool × Int) :
    TurnOutcome × List (Nat × DecisionResult) :=
  runAskLoop decideStep handle askMaxSteps 1 [] []

/-- maxRetries from internal/agent/agent.go. -/
def maxRetries : Nat := 2

/-- retryDelay from internal/agent/agent.go, in nanoseconds (2 seconds). -/
def retryDelay : Nat := 2000000000

/-- Outcome of one HTTP attempt: a transport (connection) error or a
response with a status code. -/
inductive RetryAttempt where
  | transportError
  | response (status : Nat)
deriving DecidableEq

/-- doWithRetry from internal/agent/agent.go, parameterized by the oracle of
attempt outcomes. Returns the delivered status (none when every attempt
failed), the number of attempts consumed, and the list of backoff delays
slept (in nanoseconds, in order). The loop sleeps `retryDelay * 2^(k-1)`
before attempt `k ≥ 1`, retries on transport errors and on status 429 or
500+, and returns any other response immediately. -/
def doRetryFrom (attempts : Nat → RetryAttempt) :
    Nat → Nat → Option Nat × Nat × List Nat
  | 0, attempt => (none, attempt, [])
  | remaining + 1, attempt =>
    let ds : List Nat := if attempt = 0 then [] else [retryDelay * 2 ^ (attempt - 1)]
    match attempts attempt with
    | .transportError =>
      let rest := doRetryFrom attempts remaining (attempt + 1)
      (rest.1, rest.2.1, ds ++ rest.2.2)
    | .response s =>
      if s = 429 ∨ 500 ≤ s then
        let rest := doRetryFrom attempts remaining (attempt + 1)
        (rest.1, rest.2.1, ds ++ rest.2.2)
      else (some s, attempt + 1, ds)

/-- The full retry loop: attempts 0 through maxRetries. -/
def doWithRetry (attempts : Nat → RetryAttempt) : Option Nat × Nat × List Nat :=
  doRetryFrom attempts (maxRetries + 1) 0

/-- The status check immediately following doWithRetry in askOllama and
askOpenAI: a delivered response with a non-2xx status fails at once. -/
def backendStatusOutcome (attempts : Nat → RetryAttempt) : Option Nat :=
  match (doWithRetry attempts).1 with
  | none => none
  | some s => if s < 200 ∨ 300 ≤ s then none else some s

/-- Model of Go `strings.HasPrefix`. -/
def goStartsWith (pre s : GoString) : Bool := pre.isPrefixOf s

/-- The scanning loop of findFirstJSONObject (internal/agent/agent.go lines
341-369): consume characters tracking brace depth, string-quote state and
escape state; return the consumed span when the depth returns to zero at a
closing brace outside a string. -/
def jsonScan : GoString → Int → Bool → Bool → GoString → Option GoString
  | [], _, _, _, _ => none
  | c :: rest, depth, inString, escaped, acc =>
    if escaped then jsonScan rest depth inString false (c :: acc)
    else if c = '\\' ∧ inString then jsonScan rest depth inString true (c :: acc)
    else if c = '"' then jsonScan rest depth (!inString) false (c :: acc)
    else if inString then jsonScan rest depth inString false (c :: acc)
    else if c = '{' then jsonScan rest (depth + 1) false false (c :: acc)
    else if c = '}' then
      if depth - 1 = 0 then some (c :: acc).reverse
      else jsonScan rest (depth - 1) false false (c :: acc)
    else jsonScan rest depth false false (c :: acc)

/-- findFirstJSONObject from internal/agent/agent.go: scan from the first
opening brace; empty result when there is none or the scan never closes. -/
def findFirstJSONObject (text : GoString) : GoString :=
  match text.dropWhile (· != '{') with
  | [] => []
  | rest => (jsonScan rest 0 false false []).getD []

/-- The anonymous struct unmarshalled from the decision payload by
parseDecisionJSON; `any`-typed argument values are modelled as their
`fmt.Sprint` rendering, with `none` for JSON null. -/
structure RawDecisionObj where
  action : GoString := []
  answer : GoString := []
  plugin : GoString := []
  pluginArgs : List (GoString × Option GoString) := []
  tool : GoString := []
  toolArgs : List (GoString × Option GoString) := []
  args : List GoString := []
  reason : GoString := []
  functionDescription : GoString := []
deriving DecidableEq

/-- sanitizeAnyMap from internal/agent/agent.go: trims keys and values and
drops empty keys, null values, and empty / "<nil>" / "null" values. -/
def sanitizeAnyMap (m : List (GoString × Option GoString)) : GoMap :=
  m.filterMap (fun kv =>
    let key := goTrimSpace kv.1
    if key = [] then none
    else
      match kv.2 with
      | none => none
      | some sv =>
        let val := goTrimSpace sv
        let lc := goToLower val
        if val = [] ∨ lc = goStr "<nil>" ∨ lc = goStr "null" then none
        else some (key, val))

/-- The payload-selection step of parseDecisionJSON: the trimmed text itself
when it already starts with a brace, otherwise the first balanced object
found by the scanner (none when the text is empty or no object is found). -/
def decisionPayload (text : GoString) : Option GoString :=
  let trimmed := goTrimSpace text
  if trimmed = [] then none
  else if goStartsWith (goStr "\x7b") trimmed then some trimmed
  else
    match findFirstJSONObject trimmed with
    | [] => none
    | m => some m

/-- The field mapping parseDecisionJSON applies to the unmarshalled object:
action lowercased and trimmed, text fields trimmed, argument maps
sanitized. -/
def decisionFromRaw (obj : RawDecisionObj) : DecisionResult :=
  { action := goToLower (goTrimSpace obj.action),
    answer := goTrimSpace obj.answer,
    plugin := goTrimSpace obj.plugin,
    pluginArgs := sanitizeAnyMap obj.pluginArgs,
    tool := goTrimSpace obj.tool,
    toolArgs := sanitizeAnyMap obj.toolArgs,
    args := obj.args,
    reason := goTrimSpace obj.reason,
    functionDescription := goTrimSpace obj.functionDescription }

/-- parseDecisionJSON from internal/agent/agent.go, with `json.Unmarshal`
(Go standard library) as an oracle parameter: select the payload, unmarshal
it, map the fields. -/
def parseDecisionJSON (unmarshal : GoString → Option RawDecisionObj)
    (text : GoString) : Option DecisionResult :=
  match decisionPayload text with
  | none => none
  | some payload =>
    match unmarshal payload with
    | none => none
    | some obj => some (decisionFromRaw obj)

/-- AskOptions from internal/agent/agent.go (`*float64` temperature as an
optional rational). -/
structure AskOptions where
  provider : GoString := []
  model : GoString := []
  baseURL : GoString := []
  temperature : Option ℚ := none
  maxTokens : Int := 0
  jsonMode : Bool := false
  systemPrompt : GoString := []
deriving DecidableEq

/-- AskResult from internal/agent/agent.go. -/
structure AskResult where
  text : GoString := []
  provider : GoString := []
  model : GoString := []
deriving DecidableEq

/-- decisionTemperature from internal/agent/agent.go. -/
def decisionTemperature : ℚ := 1 / 5

/-- decisionMaxTokens from internal/agent/agent.go. -/
def decisionMaxTokens : Int := 1024

/-- decisionOpts from internal/agent/agent.go: fixed planning temperature
and token limit, JSON mode on, the supplied system prompt. -/
def decisionOpts (base : AskOptions) (systemPrompt : GoString) : AskOptions :=
  { provider := base.provider, model := base.model, baseURL := base.baseURL,
    temperature := some decisionTemperature, maxTokens := decisionMaxTokens,
    jsonMode := true, systemPrompt := systemPrompt }

/-- buildDecisionSystemPrompt from internal/agent/agent.go (catalogs
embedded verbatim, "(none)" placeholders when blank). -/
def buildDecisionSystemPrompt (pluginCatalog toolCatalog : GoString) : GoString :=
  let pluginCatalog := if goTrimSpace pluginCatalog = [] then goStr "(none)" else pluginCatalog
  let toolCatalog := if goTrimSpace toolCatalog = [] then goStr "(none)" else toolCatalog
  goJoin
    [goStr "You are an execution planner for a CLI assistant.",
     goStr "You can either answer directly, run a plugin (PowerShell function), run a built-in tool, or propose creating a new function.",
     goStr "",
     goStr "Available plugins (PowerShell functions):",
     pluginCatalog,
     goStr "",
     goStr "Available tools:",
     toolCatalog,
     goStr "",
     goStr "Return ONLY valid JSON. Use one of these schemas:",
     goStr "\x7b\"action\":\"answer\",\"answer\":\"text\"\x7d",
     goStr "\x7b\"action\":\"run_plugin\",\"plugin\":\"name\",\"plugin_args\":\x7b\"ParamName\":\"value\",\"SwitchParam\":\"true\"\x7d,\"reason\":\"why\",\"answer\":\"optional text\"\x7d",
     goStr "\x7b\"action\":\"run_tool\",\"tool\":\"name\",\"tool_args\":\x7b\"key\":\"value\"\x7d,\"reason\":\"why\",\"answer\":\"optional text\"\x7d",
     goStr "\x7b\"action\":\"create_function\",\"function_description\":\"detailed description of what the function should do, its inputs and outputs\",\"reason\":\"why no existing plugin fits\"\x7d",
     goStr "",
     goStr "Catalog notation: Name* = required, Flag? = switch, Param=val = default value, Param=a|b|c = allowed values.",
     goStr "",
     goStr "Plugin argument rules:",
     goStr "- Use plugin_args (object) for named PowerShell parameters, NOT the args array.",
     goStr "- Keys are parameter names WITHOUT the leading dash (e.g. \"Host\" not \"-Host\").",
     goStr "- For switch parameters (marked ? in catalog), set the value to \"true\".",
     goStr "- ALWAYS include ALL required parameters (marked * in catalog) for the chosen plugin.",
     goStr "- Map values from the user request to the correct parameter names in the catalog.",
     goStr "  Example: user says \x27search for mario in user table\x27 with params Table*, Value*, Limit=20:",
     goStr "  => plugin_args: \x7b\"Table\":\"user\",\"Value\":\"mario\"\x7d",
     goStr "- If a required parameter cannot be inferred from the user request at all, return action=answer and ask the user.",
     goStr "- If a previous step failed with \x27missing mandatory parameters\x27, the NEXT attempt MUST include those parameters.",
     goStr "",
     goStr "Decision process (follow in order):",
     goStr "1. Identify the user\x27s INTENT: what do they want to accomplish?",
     goStr "2. Find the best matching toolkit group [Name] in the catalog for that domain.",
     goStr "3. Pick the specific function whose name and synopsis best match the intent.",
     goStr "4. Check required params (*): can ALL of them be inferred from the user request? If not, action=answer and ask.",
     goStr "5. Map user values to the correct parameter names. Use defaults when the user did not specify optional params.",
     goStr "6. If no plugin or tool matches, consider action=answer for knowledge questions or action=create_function for new automation.",
     goStr "7. Put your reasoning in the \"reason\" field.",
     goStr "",
     goStr "General rules:",
     goStr "- action must be answer, run_plugin, run_tool, or create_function.",
     goStr "- Do not invent plugin or tool names; use only the catalog above.",
     goStr "- If the user request requires an operation that no existing plugin or tool can handle, return action=create_function.",
     goStr "- Only use create_function for tasks that genuinely need a new automation capability, not for general knowledge questions.",
     goStr "- If a plugin requires confirmation or is destructive, mention it in the answer.",
     goStr "- Tool arguments are already listed in the catalog after \x27tool_args:\x27. Use those exact keys."]
    (goStr "\n")

/-- buildDecisionUserPrompt from internal/agent/agent.go. -/
def buildDecisionUserPrompt (userPrompt envContext : GoString) : GoString :=
  let parts : List GoString :=
    if goTrimSpace envContext ≠ [] then
      [goStr "Environment context:", envContext, goStr ""]
    else []
  goJoin (parts ++ [goStr "User request:", goTrimSpace userPrompt]) (goStr "\n")

/-- The repair prompt built by askDecisionJSONRepair in
internal/agent/agent.go. -/
def repairPromptText (rawText : GoString) : GoString :=
  goJoin
    [goStr "Convert the following text to valid JSON only.",
     goStr "Do not add markdown fences.",
     goStr "Use exactly one of these schemas:",
     goStr "\x7b\"action\":\"answer\",\"answer\":\"text\"\x7d",
     goStr "\x7b\"action\":\"run_plugin\",\"plugin\":\"name\",\"plugin_args\":\x7b\"ParamName\":\"value\"\x7d,\"reason\":\"why\",\"answer\":\"optional text\"\x7d",
     goStr "\x7b\"action\":\"run_tool\",\"tool\":\"name\",\"tool_args\":\x7b\"key\":\"value\"\x7d,\"reason\":\"why\",\"answer\":\"optional text\"\x7d",
     goStr "\x7b\"action\":\"create_function\",\"function_description\":\"description\",\"reason\":\"why\"\x7d",
     goStr "",
     goStr "Text:",
     goTrimSpace rawText]
    (goStr "\n")

/-- The provider/model echo plus action normalization DecideWithPlugins
applies to a successfully parsed decision (internal/agent/agent.go lines
296-317): anything other than the three dispatchable kinds becomes
"answer". -/
def normalizeParsed (parsed : DecisionResult) (r : AskResult) : DecisionResult :=
  let d := { parsed with provider := r.provider, model := r.model }
  if d.action ≠ goStr "run_plugin" ∧ d.action ≠ goStr "run_tool" ∧
      d.action ≠ goStr "create_function" then
    { d with action := goStr "answer" }
  else d

/-- DecideWithPlugins from internal/agent/agent.go, with `json.Unmarshal`
and the provider round-trip (AskWithOptions) as oracles. Besides the
result (none models a returned error), the list of provider calls made —
prompt and options, in order — is returned so that retry behaviour is
observable. -/
def DecideWithPlugins (unmarshal : GoString → Option RawDecisionObj)
    (ask : GoString → AskOptions → Option AskResult)
    (userPrompt pluginCatalog toolCatalog : GoString) (opts : AskOptions)
    (envContext : GoString) :
    Option DecisionResult × List (GoString × AskOptions) :=
  let p := goTrimSpace userPrompt
  if p = [] then (none, [])
  else
    let systemPrompt := buildDecisionSystemPrompt pluginCatalog toolCatalog
    let userMsg := buildDecisionUserPrompt p envContext
    let dOpts := decisionOpts opts systemPrompt
    match ask userMsg dOpts with
    | none => (none, [(userMsg, dOpts)])
    | some raw =>
      match parseDecisionJSON unmarshal raw.text with
      | some parsed => (some (normalizeParsed parsed raw), [(userMsg, dOpts)])
      | none =>
        let repairPrompt := repairPromptText raw.text
        match ask repairPrompt dOpts with
        | some repaired =>
          match parseDecisionJSON unmarshal repaired.text with
          | some parsed2 =>
            (some (normalizeParsed parsed2 repaired),
              [(userMsg, dOpts), (repairPrompt, dOpts)])
          | none =>
            (some { action := goStr "answer", answer := raw.text,
                    provider := raw.provider, model := raw.model },
              [(userMsg, dOpts), (repairPrompt, dOpts)])
        | none =>
          (some { action := goStr "answer", answer := raw.text,
                  provider := raw.provider, model := raw.model },
            [(userMsg, dOpts), (repairPrompt, dOpts)])

/-- State transition of the spec-side scanner description: (depth,
in-string, escaped), per character, exactly as the spec words it (braces
and quotes inside string literals are ignored; a backslash inside a string
escapes the next character). -/
def jsonStep : Int × Bool × Bool → Char → Int × Bool × Bool
  | (depth, inString, escaped), c =>
    if escaped then (depth, inString, false)
    else if c = '\\' ∧ inString then (depth, inString, true)
    else if c = '"' then (depth, !inString, false)
    else if inString then (depth, inString, false)
    else if c = '{' then (depth + 1, false, false)
    else if c = '}' then (depth - 1, false, false)
    else (depth, false, false)

/-- The sequence of states after each character, starting from `st`. -/
def jsonStates (st : Int × Bool × Bool) : GoString → List (Int × Bool × Bool)
  | [] => []
  | c :: rest =>
    let st' := jsonStep st c
    st' :: jsonStates st' rest

/-- Modelled from the spec: a balanced top-level JSON object honoring
string-quote and escape state — it opens with a brace, the tracked depth
stays positive strictly inside, and returns to zero exactly at the final
character. -/
def specBalancedJsonObject (obj : GoString) : Prop :=
  obj.head? = some '{' ∧
  (∀ st ∈ (jsonStates (0, false, false) obj).dropLast, 1 ≤ st.1) ∧
  ((jsonStates (0, false, false) obj).getLast?.map Prod.fst = some 0)

instance (obj : GoString) : Decidable (specBalancedJsonObject obj) := by
  unfold specBalancedJsonObject
  infer_instance

/-- A modelled filesystem: the stat result for each path (`none` models a
stat error / missing file). -/
abbrev GoFS := GoString → Option Int

/-- statStamp from internal/plugins/cache.go: the modification time in
UnixNano, or -1 for an empty path or stat failure. -/
def statStamp (fs : GoFS) (path : GoString) : Int :=
  if path = [] then -1
  else
    match fs path with
    | none => -1
    | some t => t

/-- fingerprintsValid from internal/plugins/cache.go: every recorded file
stamp must still match, and (when a directory stamp was recorded) so must
the directory stamp. -/
def fingerprintsValid (fs : GoFS) (dirPath : GoString) (dirStamp : Int)
    (fileStamps : List (GoString × Int)) : Bool :=
  if fileStamps.all (fun pw => statStamp fs pw.1 == pw.2) then
    (if 0 ≤ dirStamp then statStamp fs dirPath == dirStamp else true)
  else false

/-- Modelled from the spec: Entry — a discoverable automation unit's name,
source file path and one-line synopsis (its declaration is not under src/;
all fields are immutable Go strings). -/
structure Entry where
  name : GoString := []
  path : GoString := []
  synopsis : GoString := []
deriving DecidableEq

/-- entryListCacheValue from internal/plugins/cache.go. -/
structure EntryListCacheValue where
  dirPath : GoString
  items : List Entry
  dirStamp : Int
  fileStamps : List (GoString × Int)
deriving DecidableEq

/-- cloneFileStamps from internal/plugins/cache.go (a value copy of the
stamp map). -/
def cloneFileStamps (m : List (GoString × Int)) : List (GoString × Int) := m

/-- getCachedEntryList from internal/plugins/cache.go: a hit requires the
key to be present and its fingerprints to still be valid; the returned list
is a copy of the stored one (Entry has no slice-valued fields, so the copy
is value-identical). -/
def getCachedEntryList (cache : List (GoString × EntryListCacheValue))
    (key : GoString) (fs : GoFS) : Option (List Entry) :=
  match List.lookup key cache with
  | none => none
  | some v =>
    if fingerprintsValid fs v.dirPath v.dirStamp v.fileStamps then some v.items
    else none

/-- setCachedEntryList from internal/plugins/cache.go (map overwrite
modelled by shadowing). -/
def setCachedEntryList (cache : List (GoString × EntryListCacheValue))
    (key dirPath : GoString) (items : List Entry) (dirStamp : Int)
    (fileStamps : List (GoString × Int)) : List (GoString × EntryListCacheValue) :=
  (key, ⟨dirPath, items, dirStamp, cloneFileStamps fileStamps⟩) :: cache

/-- Modelled from the spec: ParamDetail — parameter name, mandatory flag,
switch flag, allowed-value set and default (its declaration is not under
src/; callers in src use exactly these fields). -/
structure ParamDetail where
  name : GoString := []
  mandatory : Bool := false
  switch : Bool := false
  validateSet : List GoString := []
  defaultValue : GoString := []
deriving DecidableEq

/-- Go slice values are references to backing arrays; this store holds the
arrays reachable from cached Info values, so that sharing between the cache
and returned copies is observable. -/
structure SliceHeap where
  strArrays : List (List GoString) := []
  detailArrays : List (List ParamDetail) := []
deriving DecidableEq

/-- Read a `[]string` backing array. -/
def readStrArray (h : SliceHeap) (ref : Nat) : List GoString :=
  h.strArrays.getD ref []

/-- Read a `[]ParamDetail` backing array. -/
def readDetailArray (h : SliceHeap) (ref : Nat) : List ParamDetail :=
  h.detailArrays.getD ref []

/-- Allocate a fresh `[]string` backing array (what
`append([]string(nil), xs...)` does). -/
def allocStrArray (h : SliceHeap) (v : List GoString) : Nat × SliceHeap :=
  (h.strArrays.length, { h with strArrays := h.strArrays ++ [v] })

/-- An in-place write through a `[]ParamDetail` slice value (what a caller
assigning `info.ParamDetails[i] = ...` does to the backing array). -/
def writeDetailArray (h : SliceHeap) (ref : Nat) (v : List ParamDetail) : SliceHeap :=
  { h with detailArrays := h.detailArrays.set ref v }

/-- Modelled from the spec: Info — unit name and synopsis (immutable Go
strings) plus the slice-valued fields Sources, Parameters, Examples and
ParamDetails, each a reference to a backing array (the declaration is not
under src/; cloneInfo and the callers in src use exactly these fields). -/
structure Info where
  name : GoString := []
  synopsis : GoString := []
  sources : Nat := 0
  parameters : Nat := 0
  examples : Nat := 0
  paramDetails : Nat := 0
deriving DecidableEq

/-- cloneInfo from internal/plugins/cache.go: the struct copy `out := info`
followed by fresh backing arrays for Sources, Parameters and Examples.
ParamDetails is not reallocated, so the copy shares its backing array with
the original. -/
def cloneInfo (h : SliceHeap) (info : Info) : Info × SliceHeap :=
  let r1 := allocStrArray h (readStrArray h info.sources)
  let r2 := allocStrArray r1.2 (readStrArray r1.2 info.parameters)
  let r3 := allocStrArray r2.2 (readStrArray r2.2 info.examples)
  ({ info with sources := r1.1, parameters := r2.1, examples := r3.1 }, r3.2)

/-- entryInfoCacheValue from internal/plugins/cache.go. -/
structure EntryInfoCacheValue where
  dirPath : GoString
  info : Info
  dirStamp : Int
  fileStamps : List (GoString × Int)
deriving DecidableEq

/-- getCachedInfo from internal/plugins/cache.go: on a fingerprint-valid
hit, return cloneInfo of the stored value. -/
def getCachedInfo (cache : List (GoString × EntryInfoCacheValue)) (key : GoString)
    (fs : GoFS) (h : SliceHeap) : Option Info × SliceHeap :=
  match List.lookup key cache with
  | none => (none, h)
  | some v =>
    if fingerprintsValid fs v.dirPath v.dirStamp v.fileStamps then
      let r := cloneInfo h v.info
      (some r.1, r.2)
    else (none, h)

/-- setCachedInfo from internal/plugins/cache.go: stores cloneInfo of the
supplied value. -/
def setCachedInfo (cache : List (GoString × EntryInfoCacheValue))
    (key dirPath : GoString) (info : Info) (dirStamp : Int)
    (fileStamps : List (GoString × Int)) (h : SliceHeap) :
    List (GoString × EntryInfoCacheValue) × SliceHeap :=
  let r := cloneInfo h info
  ((key, ⟨dirPath, r.1, dirStamp, cloneFileStamps fileStamps⟩) :: cache, r.2)

/-- Aliasing scenario for the Info cache: one cached unit whose
ParamDetails backing array (reference 0) holds one mandatory parameter. -/
def c9Detail : ParamDetail := { name := goStr "Table", mandatory := true }

/-- The value a caller writes through the returned slice. -/
def c9DetailMutated : ParamDetail := { name := goStr "Hacked" }

/-- Initial heap: one empty string array (reference 0, shared by the three
string fields) and one detail array holding c9Detail. -/
def c9Heap0 : SliceHeap := { strArrays := [[]], detailArrays := [[c9Detail]] }

/-- The Info value being cached (all slice fields referencing array 0). -/
def c9Info : Info := { name := goStr "fn" }

/-- A filesystem on which every recorded stamp is still valid. -/
def c9FS : GoFS := fun _ => some 1

/-- The fingerprint recorded at cache-write time. -/
def c9Stamps : List (GoString × Int) := [(goStr "d/fn.ps1", 1)]

/-- The cache key. -/
def c9Key : GoString := goStr "d|fn"

/-- The cache and heap after Set. -/
def c9Set : List (GoString × EntryInfoCacheValue) × SliceHeap :=
  setCachedInfo [] c9Key (goStr "d") c9Info 1 c9Stamps c9Heap0

/-- The first cached read (a hit). -/
def c9Get1 : Option Info × SliceHeap := getCachedInfo c9Set.1 c9Key c9FS c9Set.2

/-- The Info value handed to the caller by the first read. -/
def c9Returned : Info := (c9Get1.1).getD {}

/-- The heap after the caller mutates the returned Info's ParamDetails. -/
def c9Mut : SliceHeap := writeDetailArray c9Get1.2 c9Returned.paramDetails
  [c9DetailMutated]

/-- A second cached read, after the caller's mutation. -/
def c9Get2 : Option Info × SliceHeap := getCachedInfo c9Set.1 c9Key c9FS c9Mut

-- ===== THEOREMS =====

/-- estimateTokens is monotone in the string length. -/
theorem estimateTokens_mono {s t : GoString} (h : s.length ≤ t.length) :
    estimateTokens s ≤ estimateTokens t :=
  Nat.div_le_div_right h

/-- The previous-prompts trimming loop only ever drops a prefix of the block. -/
theorem dropPreviousLines_suffix (prompt pb : GoString) (budget : Nat) :
    (dropPreviousLines prompt pb budget).IsSuffix pb := by
  induction pb, budget using dropPreviousLines.induct prompt with
  | case1 pb budget hgt hidx =>
    rw [dropPreviousLines, dif_pos hgt, hidx]
    exact List.nil_suffix
  | case2 pb budget hgt idx hidx ih =>
    rw [dropPreviousLines, dif_pos hgt, hidx]
    exact ih.trans (List.drop_suffix _ _)
  | case3 pb budget hle =>
    rw [dropPreviousLines, dif_neg hle]

/-- After the previous-prompts trimming loop, either the budget constraint
holds or the block has been emptied entirely. -/
theorem dropPreviousLines_budget (prompt pb : GoString) (budget : Nat) :
    estimateTokens prompt + estimateTokens (dropPreviousLines prompt pb budget) ≤ budget ∨
    dropPreviousLines prompt pb budget = [] := by
  induction pb, budget using dropPreviousLines.induct prompt with
  | case1 pb budget hgt hidx =>
    rw [dropPreviousLines, dif_pos hgt, hidx]
    exact Or.inr rfl
  | case2 pb budget hgt idx hidx ih =>
    rw [dropPreviousLines, dif_pos hgt, hidx]
    exact ih
  | case3 pb budget hle =>
    rw [dropPreviousLines, dif_neg hle]
    rcases Decidable.em (estimateTokens prompt + estimateTokens pb ≤ budget) with h | h
    · exact Or.inl h
    · refine Or.inr ?_
      rcases List.eq_nil_or_concat pb with hnil | ⟨_, _, _⟩
      · exact hnil
      · exfalso
        apply hle
        constructor
        · omega
        · subst_vars; simp

/-- Dropping previous-prompt lines from an empty block yields the empty
block. -/
theorem dropPreviousLines_nil (prompt : GoString) (budget : Nat) :
    dropPreviousLines prompt [] budget = [] := by
  rw [dropPreviousLines]
  simp

/-- C2 counterexample: the claim fails as stated when the original request
alone exceeds the budget. An 8-character request estimates to 2 tokens;
with budget 1 and empty summary blocks the combined estimate exceeds the
budget (the claim's premise), yet the trimmed result still exceeds the
budget, because trimming never touches the request text. -/
theorem trimToTokenBudget_over_budget_request :
    estimateTokens (goStr "aaaaaaaa") + estimateTokens ([] : GoString) +
      estimateTokens ([] : GoString) > 1 ∧
    trimToTokenBudget (goStr "aaaaaaaa") [] [] 1 = ([], []) ∧
    estimateTokens (goStr "aaaaaaaa") +
      estimateTokens (trimToTokenBudget (goStr "aaaaaaaa") [] [] 1).1 +
      estimateTokens (trimToTokenBudget (goStr "aaaaaaaa") [] [] 1).2 > 1 := by
  have hval : trimToTokenBudget (goStr "aaaaaaaa") [] [] 1 = ([], []) := by
    simp [trimToTokenBudget, dropPreviousLines_nil, estimateTokens, goStr]
  refine ⟨by decide, hval, ?_⟩
  rw [hval]
  decide

/-- C2 (amended): whenever the original request alone fits the budget, the
trimmed result's combined estimate is at most the budget; trimming only ever
removes a prefix of each summary block (the request text is never truncated),
and the previous-prompts block is only touched after the session block has
been dropped entirely. -/
theorem trimToTokenBudget_spec (prompt sessionBlock previousBlock : GoString)
    (budget : Nat) (hp : estimateTokens prompt ≤ budget) :
    estimateTokens prompt +
      estimateTokens (trimToTokenBudget prompt sessionBlock previousBlock budget).1 +
      estimateTokens (trimToTokenBudget prompt sessionBlock previousBlock budget).2 ≤
        budget ∧
    (trimToTokenBudget prompt sessionBlock previousBlock budget).1.IsSuffix
      sessionBlock ∧
    (trimToTokenBudget prompt sessionBlock previousBlock budget).2.IsSuffix
      previousBlock ∧
    ((trimToTokenBudget prompt sessionBlock previousBlock budget).2 ≠ previousBlock →
      (trimToTokenBudget prompt sessionBlock previousBlock budget).1 = []) := by
  by_cases h1 : estimateTokens prompt + estimateTokens sessionBlock +
      estimateTokens previousBlock ≤ budget
  · have hval : trimToTokenBudget prompt sessionBlock previousBlock budget =
        (sessionBlock, previousBlock) := by
      simp only [trimToTokenBudget]
      rw [if_pos h1]
    rw [hval]
    exact ⟨h1, List.suffix_refl _, List.suffix_refl _, fun h => absurd rfl h⟩
  · by_cases h2 : estimateTokens prompt + estimateTokens previousBlock > budget
    · have hval : trimToTokenBudget prompt sessionBlock previousBlock budget =
          ([], dropPreviousLines prompt previousBlock budget) := by
        simp only [trimToTokenBudget]
        rw [if_neg h1, if_pos h2]
      rw [hval]
      refine ⟨?_, List.nil_suffix, dropPreviousLines_suffix prompt previousBlock budget,
        fun _ => rfl⟩
      rcases dropPreviousLines_budget prompt previousBlock budget with h | h
      · simp only [estimateTokens, List.length_nil] at h ⊢
        omega
      · rw [h]
        simp only [estimateTokens, List.length_nil] at hp ⊢
        omega
    · by_cases h3 : (estimateTokens prompt + estimateTokens sessionBlock +
          estimateTokens previousBlock - budget) * 4 ≥ sessionBlock.length
      · have hval : trimToTokenBudget prompt sessionBlock previousBlock budget =
            ([], previousBlock) := by
          simp only [trimToTokenBudget]
          rw [if_neg h1, if_neg h2, if_pos h3]
        rw [hval]
        refine ⟨?_, List.nil_suffix, List.suffix_refl _, fun h => absurd rfl h⟩
        simp only [estimateTokens, List.length_nil] at *
        omega
      · rcases hidx : (sessionBlock.drop
            ((estimateTokens prompt + estimateTokens sessionBlock +
              estimateTokens previousBlock - budget) * 4)).findIdx? (· == '\n')
            with _ | idx
        · have hval : trimToTokenBudget prompt sessionBlock previousBlock budget =
              (sessionBlock.drop
                ((estimateTokens prompt + estimateTokens sessionBlock +
                  estimateTokens previousBlock - budget) * 4), previousBlock) := by
            simp only [trimToTokenBudget]
            rw [if_neg h1, if_neg h2, if_neg h3, hidx]
          rw [hval]
          refine ⟨?_, List.drop_suffix _ _, List.suffix_refl _, fun h => absurd rfl h⟩
          have hlen := List.length_drop
            ((estimateTokens prompt + estimateTokens sessionBlock +
              estimateTokens previousBlock - budget) * 4) sessionBlock
          simp only [estimateTokens] at *
          omega
        · have hval : trimToTokenBudget prompt sessionBlock previousBlock budget =
              ((sessionBlock.drop
                ((estimateTokens prompt + estimateTokens sessionBlock +
                  estimateTokens previousBlock - budget) * 4)).drop (idx + 1),
                previousBlock) := by
            simp only [trimToTokenBudget]
            rw [if_neg h1, if_neg h2, if_neg h3, hidx]
          rw [hval]
          refine ⟨?_, (List.drop_suffix _ _).trans (List.drop_suffix _ _),
            List.suffix_refl _, fun h => absurd rfl h⟩
          have hlen1 := List.length_drop
            ((estimateTokens prompt + estimateTokens sessionBlock +
              estimateTokens previousBlock - budget) * 4) sessionBlock
          have hlen2 := List.length_drop (idx + 1)
            (sessionBlock.drop
              ((estimateTokens prompt + estimateTokens sessionBlock +
                estimateTokens previousBlock - budget) * 4))
          simp only [estimateTokens] at *
          omega

/-- C2 witness: the amended trimming theorem applied at a concrete input
whose request fits the budget. -/
theorem trimToTokenBudget_spec_witness :
    estimateTokens (goStr "abcd") ≤ 2 ∧
    (estimateTokens (goStr "abcd") +
      estimateTokens
        (trimToTokenBudget (goStr "abcd") (goStr "sss sss s") (goStr "ppp ppp p") 2).1 +
      estimateTokens
        (trimToTokenBudget (goStr "abcd") (goStr "sss sss s") (goStr "ppp ppp p") 2).2 ≤
        2 ∧
    (trimToTokenBudget (goStr "abcd") (goStr "sss sss s") (goStr "ppp ppp p") 2).1.IsSuffix
      (goStr "sss sss s") ∧
    (trimToTokenBudget (goStr "abcd") (goStr "sss sss s") (goStr "ppp ppp p") 2).2.IsSuffix
      (goStr "ppp ppp p") ∧
    ((trimToTokenBudget (goStr "abcd") (goStr "sss sss s") (goStr "ppp ppp p") 2).2 ≠
        goStr "ppp ppp p" →
      (trimToTokenBudget (goStr "abcd") (goStr "sss sss s") (goStr "ppp ppp p") 2).1 =
        [])) :=
  ⟨by decide,
    trimToTokenBudget_spec (goStr "abcd") (goStr "sss sss s") (goStr "ppp ppp p") 2
      (by decide)⟩

/-- C3 counterexample: `-.5` has a leading dash not followed by a digit, so
the claim's heuristic classifies it as a named/flag token, but the code
treats it as a value (negative/decimal numbers are values), leaving it
positional. -/
theorem looksLike_claim_mismatch :
    claimFlagHeuristic (goStr "-.5") = true ∧
    looksLikePowerShellNamedToken (goStr "-.5") = false ∧
    splitPowerShellSplatArgs [goStr "-.5"] = ([], [goStr "-.5"]) := by
  refine ⟨rfl, rfl, ?_⟩
  decide

/-- C3 (amended): splatting the map `{Force: true, Host: server1, Port:
8080, Skip: false}` produces the tokens `-Force -Host server1 -Port 8080`
(Skip omitted because "false" means the switch is not set), which the
harness splits into the named collection `{Force: switch, Host: "server1",
Port: "8080"}`; remaining tokens stay positional; and a token is treated as
named exactly when, after trimming, it starts with a dash, is not a bare
dash, and its character after the dash (if any) is neither a digit nor a
period. -/
theorem splatArgs_spec :
    pluginArgsToPS [(goStr "Force", goStr "true"), (goStr "Host", goStr "server1"),
        (goStr "Port", goStr "8080"), (goStr "Skip", goStr "false")] =
      [goStr "-Force", goStr "-Host", goStr "server1", goStr "-Port", goStr "8080"] ∧
    splitPowerShellSplatArgs
        (pluginArgsToPS [(goStr "Force", goStr "true"), (goStr "Host", goStr "server1"),
          (goStr "Port", goStr "8080"), (goStr "Skip", goStr "false")]) =
      ([{ name := goStr "Force", isSwitch := true },
        { name := goStr "Host", value := goStr "server1" },
        { name := goStr "Port", value := goStr "8080" }], []) ∧
    splitPowerShellSplatArgs
        [goStr "pos0", goStr "-Force", goStr "-Host", goStr "server1",
          goStr "-Port", goStr "8080", goStr "trailing"] =
      ([{ name := goStr "Force", isSwitch := true },
        { name := goStr "Host", value := goStr "server1" },
        { name := goStr "Port", value := goStr "8080" }],
        [goStr "pos0", goStr "trailing"]) ∧
    (∀ v : GoString, looksLikePowerShellNamedToken v = true ↔
      ((goTrimSpace v).head? = some '-' ∧ goTrimSpace v ≠ goStr "-" ∧
        ∀ c, (goTrimSpace v)[1]? = some c → ¬(('0' ≤ c ∧ c ≤ '9') ∨ c = '.'))) := by
  refine ⟨by decide, by decide, by decide, ?_⟩
  intro v
  unfold looksLikePowerShellNamedToken
  rcases goTrimSpace v with _ | ⟨c, _ | ⟨c2, r⟩⟩
  · simp [goStr]
  · by_cases hc : c = '-'
    · subst hc
      simp [goStr]
    · simp [goStr, hc]
  · by_cases hc : c = '-'
    · subst hc
      by_cases hd : ('0' ≤ c2 ∧ c2 ≤ '9') ∨ c2 = '.'
      · simp only [goStr]
        simp [hd]
        rcases hd with ⟨h0, h9⟩ | hdot
        · exact fun f => absurd (f h0) (not_lt.mpr h9)
        · exact fun _ => hdot
      · simp only [goStr]
        simp [hd]
        push_neg at hd
        exact hd
    · simp [goStr, hc]

/-- C3 witness: the amended flag characterization applied at a concrete
token. -/
theorem splatArgs_spec_witness :
    looksLikePowerShellNamedToken (goStr "-Verbose") = true :=
  (splatArgs_spec.2.2.2 (goStr "-Verbose")).mpr (by decide)

/-- Lookup in a Go map does not depend on iteration order (keys are
pairwise distinct). -/
theorem lookup_cons_ne {β : Type} (k a : GoString) (b : β) (t : List (GoString × β))
    (h : k ≠ a) : List.lookup k ((a, b) :: t) = List.lookup k t := by
  simp [List.lookup, beq_eq_false_iff_ne.mpr h]

/-- Looking up the head key of an association list yields its value. -/
theorem lookup_cons_self {β : Type} (a : GoString) (b : β)
    (t : List (GoString × β)) : List.lookup a ((a, b) :: t) = some b := by
  simp

/-- Lookup in a Go map does not depend on iteration order (keys are
pairwise distinct). -/
theorem lookup_perm (k : GoString) :
    ∀ {m1 m2 : GoMap}, m1.Perm m2 → (goMapKeys m1).Nodup →
      List.lookup k m1 = List.lookup k m2 := by
  intro m1 m2 h
  induction h with
  | nil => intro _; rfl
  | cons p h ih =>
    intro nd
    rcases p with ⟨a, b⟩
    simp only [goMapKeys, List.map_cons, List.nodup_cons] at nd
    by_cases hk : k = a
    · subst hk
      rw [lookup_cons_self, lookup_cons_self]
    · rw [lookup_cons_ne k a b _ hk, lookup_cons_ne k a b _ hk]
      exact ih nd.2
  | swap x y l =>
    intro nd
    rcases x with ⟨a, b⟩
    rcases y with ⟨c, e⟩
    simp only [goMapKeys, List.map_cons, List.nodup_cons, List.mem_cons] at nd
    have hne : c ≠ a := fun hEq => nd.1 (Or.inl hEq)
    by_cases hk1 : k = c
    · subst hk1
      rw [lookup_cons_self, lookup_cons_ne k a b _ hne, lookup_cons_self]
    · by_cases hk2 : k = a
      · subst hk2
        rw [lookup_cons_ne k c e _ hk1, lookup_cons_self, lookup_cons_self]
      · rw [lookup_cons_ne k c e _ hk1, lookup_cons_ne k a b _ hk2,
          lookup_cons_ne k a b _ hk2, lookup_cons_ne k c e _ hk1]
  | trans h1 h2 ih1 ih2 =>
    intro nd
    exact (ih1 nd).trans (ih2 (((h1.map Prod.fst).nodup_iff).mp nd))

/-- Go map indexing does not depend on iteration order. -/
theorem lookupGo_perm {m1 m2 : GoMap} (h : m1.Perm m2)
    (nd : (goMapKeys m1).Nodup) (k : GoString) : lookupGo m1 k = lookupGo m2 k := by
  unfold lookupGo
  rw [lookup_perm k h nd]

/-- Sorting strings erases any difference in input order. -/
theorem sortStrings_perm_eq {l1 l2 : List GoString} (h : l1.Perm l2) :
    sortStrings l1 = sortStrings l2 :=
  List.eq_of_perm_of_sorted
    ((List.perm_insertionSort _ l1).trans (h.trans (List.perm_insertionSort _ l2).symm))
    (List.sorted_insertionSort _ l1) (List.sorted_insertionSort _ l2)

/-- A permutation of a map is empty exactly when the map is. -/
theorem isEmpty_perm {α : Type} {l1 l2 : List α} (h : l1.Perm l2) :
    l1.isEmpty = l2.isEmpty := by
  rcases l1 with _ | _
  · rw [h.nil_eq.symm]
  · rcases l2 with _ | _
    · exact absurd h.symm.nil_eq (by simp)
    · rfl

/-- pluginArgsToPS is determined by map contents, not iteration order. -/
theorem pluginArgsToPS_perm {m1 m2 : GoMap} (h : m1.Perm m2)
    (nd : (goMapKeys m1).Nodup) : pluginArgsToPS m1 = pluginArgsToPS m2 := by
  unfold pluginArgsToPS
  rw [isEmpty_perm h]
  rcases he : m2.isEmpty with _ | _
  · simp only [Bool.false_eq_true, if_false]
    have hkeys : sortStrings (goMapKeys m1) = sortStrings (goMapKeys m2) :=
      sortStrings_perm_eq (h.map Prod.fst)
    rw [hkeys]
    congr 1
    refine List.map_congr_left (fun k _ => ?_)
    unfold pluginArgTokens
    rw [lookupGo_perm h nd k]
  · rfl

/-- formatPluginArgs is determined by map contents, not iteration order. -/
theorem formatPluginArgs_perm {m1 m2 : GoMap} (h : m1.Perm m2)
    (nd : (goMapKeys m1).Nodup) : formatPluginArgs m1 = formatPluginArgs m2 := by
  unfold formatPluginArgs
  rw [isEmpty_perm h]
  rcases he : m2.isEmpty with _ | _
  · simp only [Bool.false_eq_true, if_false]
    have hkeys : sortStrings (goMapKeys m1) = sortStrings (goMapKeys m2) :=
      sortStrings_perm_eq (h.map Prod.fst)
    rw [hkeys]
    congr 1
    refine List.map_congr_left (fun k _ => ?_)
    rw [lookupGo_perm h nd k]
  · rfl

/-- formatToolArgs is determined by map contents, not iteration order. -/
theorem formatToolArgs_perm {m1 m2 : GoMap} (h : m1.Perm m2)
    (nd : (goMapKeys m1).Nodup) : formatToolArgs m1 = formatToolArgs m2 := by
  unfold formatToolArgs
  rw [isEmpty_perm h]
  rcases he : m2.isEmpty with _ | _
  · simp only [Bool.false_eq_true, if_false]
    have hfe : (goMapKeys m1).filter (fun k => keepToolArg (lookupGo m1 k)) =
        (goMapKeys m1).filter (fun k => keepToolArg (lookupGo m2 k)) :=
      List.filter_congr (fun k _ => by rw [lookupGo_perm h nd k])
    have hfp : ((goMapKeys m1).filter (fun k => keepToolArg (lookupGo m2 k))).Perm
        ((goMapKeys m2).filter (fun k => keepToolArg (lookupGo m2 k))) :=
      (h.map Prod.fst).filter _
    rw [hfe, isEmpty_perm hfp, sortStrings_perm_eq hfp]
    rcases (goMapKeys m2).filter (fun k => keepToolArg (lookupGo m2 k)) |>.isEmpty with _ | _
    · simp only [Bool.false_eq_true, if_false]
      congr 1
      refine List.map_congr_left (fun k _ => ?_)
      rw [lookupGo_perm h nd k]
    · rfl
  · rfl

/-- C10: the canonicalization functions are deterministic — two decisions
with equal action kind, targets and argument-map contents (regardless of map
iteration order) produce identical argument strings and identical
loop-detection signatures. -/
theorem canonicalization_deterministic (d1 d2 : DecisionResult)
    (ha : d1.action = d2.action) (hp : d1.plugin = d2.plugin)
    (ht : d1.tool = d2.tool) (hargs : d1.args = d2.args)
    (hf : d1.functionDescription = d2.functionDescription)
    (hpm : d1.pluginArgs.Perm d2.pluginArgs)
    (hpn : (goMapKeys d1.pluginArgs).Nodup)
    (htm : d1.toolArgs.Perm d2.toolArgs)
    (htn : (goMapKeys d1.toolArgs).Nodup) :
    pluginArgsToPS d1.pluginArgs = pluginArgsToPS d2.pluginArgs ∧
    formatPluginArgs d1.pluginArgs = formatPluginArgs d2.pluginArgs ∧
    formatToolArgs d1.toolArgs = formatToolArgs d2.toolArgs ∧
    decisionSignature d1 = decisionSignature d2 := by
  refine ⟨pluginArgsToPS_perm hpm hpn, formatPluginArgs_perm hpm hpn,
    formatToolArgs_perm htm htn, ?_⟩
  unfold decisionSignature
  rw [ha, hp, ht, hargs, hf, formatPluginArgs_perm hpm hpn, formatToolArgs_perm htm htn]

/-- C10 witness: two decisions whose tool-argument maps list the same
entries in opposite orders yield the same signature. -/
theorem canonicalization_deterministic_witness :
    decisionSignature
        ({ action := goStr "run_tool", tool := goStr "search",
           toolArgs := [(goStr "name", goStr "report"), (goStr "ext", goStr "pdf")] }) =
      decisionSignature
        ({ action := goStr "run_tool", tool := goStr "search",
           toolArgs := [(goStr "ext", goStr "pdf"), (goStr "name", goStr "report")] }) :=
  (canonicalization_deterministic _ _ rfl rfl rfl rfl rfl (by decide) (by decide)
    (by decide) (by decide)).2.2.2

/-- A decision with a non-empty signature is one of the three dispatchable
action kinds. -/
theorem action_of_signature_ne (d : DecisionResult) (h : decisionSignature d ≠ []) :
    d.action = goStr "run_plugin" ∨ d.action = goStr "run_tool" ∨
      d.action = goStr "create_function" := by
  unfold decisionSignature at h
  split_ifs at h with h1 h2 h3
  · exact Or.inl h1
  · exact Or.inr (Or.inl h2)
  · exact Or.inr (Or.inr h3)
  · exact absurd rfl h

/-- A dispatchable action kind is neither the literal "answer" nor blank. -/
theorem dispatch_action_not_answer (d : DecisionResult)
    (h : d.action = goStr "run_plugin" ∨ d.action = goStr "run_tool" ∨
      d.action = goStr "create_function") :
    ¬(d.action = goStr "answer" ∨ goTrimSpace d.action = []) := by
  rcases h with h | h | h <;> rw [h] <;> decide

/-- If the current decision's signature is non-empty and already in the seen
set, the loop terminates immediately with LoopDetected, dispatching
nothing. -/
theorem runAskLoop_loopDetected
    (decideStep : Nat → List AskActionRecord → Option DecisionResult)
    (handle : Nat → DecisionResult → List AskActionRecord →
      List AskActionRecord × Bool × Int)
    (remaining step : Nat) (seen : List GoString) (hist : List AskActionRecord)
    (d : DecisionResult) (hd : decideStep step hist = some d)
    (hsig : decisionSignature d ≠ []) (hseen : decisionSignature d ∈ seen)
    (hrem : 0 < remaining) :
    runAskLoop decideStep handle remaining step seen hist =
      (TurnOutcome.loopDetected d.answer, []) := by
  rcases remaining with _ | r
  · omega
  · rw [runAskLoop, hd]
    dsimp only
    rw [if_neg (dispatch_action_not_answer d (action_of_signature_ne d hsig))]
    rw [if_pos ⟨hsig, hseen⟩]

/-- C1: loop detection. If the decision at the current step has a non-empty
signature already recorded from an earlier step of the same turn, the loop
terminates with LoopDetected and executes nothing further; in particular,
starting a turn with a dispatched decision at step 1 followed at step 2 by a
decision with the same signature terminates the turn with LoopDetected on
the second occurrence, having dispatched only the first. -/
theorem loop_detection
    (decideStep : Nat → List AskActionRecord → Option DecisionResult)
    (handle : Nat → DecisionResult → List AskActionRecord →
      List AskActionRecord × Bool × Int)
    (d1 d2 : DecisionResult) (h1 : List AskActionRecord) (c : Int)
    (hd1 : decideStep 1 [] = some d1)
    (hsig1 : decisionSignature d1 ≠ [])
    (hh : handle 1 d1 [] = (h1, true, c))
    (hd2 : decideStep 2 h1 = some d2)
    (hsig2 : decisionSignature d2 = decisionSignature d1) :
    runAskOnce decideStep handle = (TurnOutcome.loopDetected d2.answer, [(1, d1)]) ∧
    (∀ remaining step seen hist d, decideStep step hist = some d →
      decisionSignature d ≠ [] → decisionSignature d ∈ seen → 0 < remaining →
      runAskLoop decideStep handle remaining step seen hist =
        (TurnOutcome.loopDetected d.answer, [])) := by
  constructor
  · have htrio := action_of_signature_ne d1 hsig1
    rw [runAskOnce]
    show runAskLoop decideStep handle (3 + 1) 1 [] [] = _
    rw [runAskLoop, hd1]
    dsimp only
    rw [if_neg (dispatch_action_not_answer d1 htrio)]
    rw [if_neg (by simp : ¬(decisionSignature d1 ≠ [] ∧ decisionSignature d1 ∈ ([] : List GoString)))]
    rw [if_pos hsig1, if_pos htrio, hh]
    simp only
    rw [runAskLoop_loopDetected decideStep handle 3 2 [decisionSignature d1] h1 d2 hd2
      (by rw [hsig2]; exact hsig1) (by rw [hsig2]; exact List.mem_singleton_self _)
      (by omega)]
    simp
  · exact fun remaining step seen hist d hd hsig hseen hrem =>
      runAskLoop_loopDetected decideStep handle remaining step seen hist d hd hsig hseen hrem

/-- C1 witness: an oracle that proposes the same tool call every step loop-
terminates on step 2 with only step 1 dispatched. -/
theorem loop_detection_witness :
    runAskOnce (fun _ _ => some ({ action := goStr "run_tool", tool := goStr "search" }))
        (fun _ _ h => (h, true, 0)) =
      (TurnOutcome.loopDetected ([] : GoString),
        [(1, { action := goStr "run_tool", tool := goStr "search" })]) ∧
    (∀ remaining step seen hist d,
      (fun (_ : Nat) (_ : List AskActionRecord) =>
        some ({ action := goStr "run_tool", tool := goStr "search" } : DecisionResult))
          step hist = some d →
      decisionSignature d ≠ [] → decisionSignature d ∈ seen → 0 < remaining →
      runAskLoop
        (fun _ _ => some ({ action := goStr "run_tool", tool := goStr "search" }))
        (fun _ _ h => (h, true, 0)) remaining step seen hist =
          (TurnOutcome.loopDetected d.answer, [])) :=
  loop_detection (fun _ _ => some ({ action := goStr "run_tool", tool := goStr "search" }))
    (fun _ _ h => (h, true, 0))
    ({ action := goStr "run_tool", tool := goStr "search" })
    ({ action := goStr "run_tool", tool := goStr "search" })
    [] 0 rfl (by decide) rfl rfl rfl

/-- A status delivered by the retry loop is never a retryable one. -/
theorem doRetryFrom_result_not_retryable (attempts : Nat → RetryAttempt) :
    ∀ remaining attempt s, (doRetryFrom attempts remaining attempt).1 = some s →
      ¬(s = 429 ∨ 500 ≤ s) := by
  intro remaining
  induction remaining with
  | zero =>
    intro attempt s h
    simp [doRetryFrom] at h
  | succ r ih =>
    intro attempt s h
    rw [doRetryFrom] at h
    rcases hA : attempts attempt with _ | st <;> rw [hA] at h <;> dsimp only at h
    · exact ih _ _ h
    · by_cases hr : st = 429 ∨ 500 ≤ st
      · rw [if_pos hr] at h
        exact ih _ _ h
      · rw [if_neg hr] at h
        dsimp only at h
        rcases h with h
        rw [Option.some.injEq] at h
        subst h
        exact hr

/-- The retry loop consumes between `attempt` and `attempt + remaining`
attempts. -/
theorem doRetryFrom_used_bounds (attempts : Nat → RetryAttempt) :
    ∀ remaining attempt,
      attempt ≤ (doRetryFrom attempts remaining attempt).2.1 ∧
      (doRetryFrom attempts remaining attempt).2.1 ≤ attempt + remaining := by
  intro remaining
  induction remaining with
  | zero =>
    intro attempt
    simp [doRetryFrom]
  | succ r ih =>
    intro attempt
    rw [doRetryFrom]
    rcases hA : attempts attempt with _ | st <;> dsimp only
    · have := ih (attempt + 1)
      omega
    · by_cases hr : st = 429 ∨ 500 ≤ st
      · rw [if_pos hr]
        have := ih (attempt + 1)
        dsimp only
        omega
      · rw [if_neg hr]
        dsimp only
        omega

/-- From a positive attempt index, the delays slept are exactly the
exponential backoff values for the attempts entered. -/
theorem doRetryFrom_delays (attempts : Nat → RetryAttempt) :
    ∀ remaining attempt, 1 ≤ attempt →
      (doRetryFrom attempts remaining attempt).2.2 =
        (List.range' attempt ((doRetryFrom attempts remaining attempt).2.1 - attempt)).map
          (fun k => retryDelay * 2 ^ (k - 1)) := by
  intro remaining
  induction remaining with
  | zero =>
    intro attempt _
    simp [doRetryFrom]
  | succ r ih =>
    intro attempt h1
    rw [doRetryFrom]
    have hne : ¬(attempt = 0) := by omega
    rcases hA : attempts attempt with _ | st <;> dsimp only
    · rw [if_neg hne]
      have hb := doRetryFrom_used_bounds attempts r (attempt + 1)
      have hn : (doRetryFrom attempts r (attempt + 1)).2.1 - attempt =
          ((doRetryFrom attempts r (attempt + 1)).2.1 - (attempt + 1)) + 1 := by omega
      rw [hn, List.range'_succ, List.map_cons, ih (attempt + 1) (by omega)]
      rfl
    · by_cases hr : st = 429 ∨ 500 ≤ st
      · rw [if_pos hr]
        dsimp only
        rw [if_neg hne]
        have hb := doRetryFrom_used_bounds attempts r (attempt + 1)
        have hn : (doRetryFrom attempts r (attempt + 1)).2.1 - attempt =
            ((doRetryFrom attempts r (attempt + 1)).2.1 - (attempt + 1)) + 1 := by omega
        rw [hn, List.range'_succ, List.map_cons, ih (attempt + 1) (by omega)]
        rfl
      · rw [if_neg hr]
        dsimp only
        rw [if_neg hne]
        have hn : attempt + 1 - attempt = 1 := by omega
        rw [hn]
        rfl

/-- Every non-final attempt of the retry loop ended in a transport error or
a retryable status. -/
theorem doRetryFrom_retried_retryable (attempts : Nat → RetryAttempt) :
    ∀ remaining attempt i, attempt ≤ i →
      i + 1 < (doRetryFrom attempts remaining attempt).2.1 →
      attempts i = RetryAttempt.transportError ∨
        ∃ s, attempts i = RetryAttempt.response s ∧ (s = 429 ∨ 500 ≤ s) := by
  intro remaining
  induction remaining with
  | zero =>
    intro attempt i hle hlt
    simp [doRetryFrom] at hlt
    omega
  | succ r ih =>
    intro attempt i hle hlt
    rw [doRetryFrom] at hlt
    rcases hA : attempts attempt with _ | st <;> rw [hA] at hlt <;> dsimp only at hlt
    · rcases Nat.eq_or_lt_of_le hle with hEq | hlt2
      · subst hEq
        exact Or.inl hA
      · exact ih (attempt + 1) i (by omega) hlt
    · by_cases hr : st = 429 ∨ 500 ≤ st
      · rw [if_pos hr] at hlt
        rcases Nat.eq_or_lt_of_le hle with hEq | hlt2
        · subst hEq
          exact Or.inr ⟨st, hA, hr⟩
        · exact ih (attempt + 1) i (by omega) hlt
      · rw [if_neg hr] at hlt
        dsimp only at hlt
        omega

/-- C6: the shared retry wrapper retries only on connection failure or
status 429/500+, waits exponentially growing delays (base delay doubled on
each subsequent attempt) before retries, uses at most maxRetries+1 attempts,
returns any other status (including non-2xx like 401/404) on the first
attempt without retry, and the backend call then fails immediately on a
non-2xx status. -/
theorem retry_policy (attempts : Nat → RetryAttempt) :
    (∀ s, attempts 0 = RetryAttempt.response s → ¬(s = 429 ∨ 500 ≤ s) →
      doWithRetry attempts = (some s, 1, [])) ∧
    (∀ s, (doWithRetry attempts).1 = some s → ¬(s = 429 ∨ 500 ≤ s)) ∧
    (doWithRetry attempts).2.1 ≤ maxRetries + 1 ∧
    ((doWithRetry attempts).2.2 =
      (List.range ((doWithRetry attempts).2.1 - 1)).map (fun k => retryDelay * 2 ^ k)) ∧
    (∀ i, i + 1 < (doWithRetry attempts).2.1 →
      attempts i = RetryAttempt.transportError ∨
        ∃ s, attempts i = RetryAttempt.response s ∧ (s = 429 ∨ 500 ≤ s)) ∧
    (∀ s, attempts 0 = RetryAttempt.response s → ¬(s = 429 ∨ 500 ≤ s) →
      (s < 200 ∨ 300 ≤ s) → backendStatusOutcome attempts = none) := by
  have hfirst : ∀ s, attempts 0 = RetryAttempt.response s → ¬(s = 429 ∨ 500 ≤ s) →
      doWithRetry attempts = (some s, 1, []) := by
    intro s h0 hnr
    rw [doWithRetry, doRetryFrom, h0]
    dsimp only
    rw [if_neg hnr]
    simp
  refine ⟨hfirst, fun s h => doRetryFrom_result_not_retryable attempts _ _ s h, ?_, ?_, ?_, ?_⟩
  · have := doRetryFrom_used_bounds attempts (maxRetries + 1) 0
    rw [doWithRetry]
    omega
  · rw [doWithRetry, doRetryFrom]
    rcases hA : attempts 0 with _ | st <;> dsimp only
    · have hb := doRetryFrom_used_bounds attempts maxRetries 1
      have := doRetryFrom_delays attempts maxRetries 1 (by omega)
      rw [this]
      have hn : (doRetryFrom attempts maxRetries 1).2.1 - 1 =
          (doRetryFrom attempts maxRetries 1).2.1 - 1 := rfl
      rw [List.range'_eq_map_range, List.map_map]
      refine congrArg _ (List.map_congr_left (fun k _ => ?_))
      simp
    · by_cases hr : st = 429 ∨ 500 ≤ st
      · rw [if_pos hr]
        dsimp only
        have hb := doRetryFrom_used_bounds attempts maxRetries 1
        have := doRetryFrom_delays attempts maxRetries 1 (by omega)
        rw [this]
        rw [List.range'_eq_map_range, List.map_map]
        refine congrArg _ (List.map_congr_left (fun k _ => ?_))
        simp
      · rw [if_neg hr]
        dsimp only
        rfl
  · intro i hlt
    rw [doWithRetry] at hlt
    exact doRetryFrom_retried_retryable attempts (maxRetries + 1) 0 i (by omega) hlt
  · intro s h0 hnr h2xx
    rw [backendStatusOutcome, hfirst s h0 hnr]
    dsimp only
    rw [if_pos h2xx]

/-- C6 witness: a 404 response on the first attempt is delivered immediately
with no retries and no delays. -/
theorem retry_policy_witness :
    doWithRetry (fun _ => RetryAttempt.response 404) = (some 404, 1, []) :=
  (retry_policy (fun _ => RetryAttempt.response 404)).1 404 rfl (by decide)

/-- One step of the scanner from positive depth: either the step closes the
object (depth returns to zero) and the consumed span is returned, or the
scan continues in the stepped state. -/
theorem jsonScan_cons_step (c : Char) (rest : GoString) (d : Int) (s e : Bool)
    (acc : GoString) (h1 : 1 ≤ d) :
    jsonScan (c :: rest) d s e acc =
      if (jsonStep (d, s, e) c).1 = 0 then some (acc.reverse ++ [c])
      else
        jsonScan rest (jsonStep (d, s, e) c).1 (jsonStep (d, s, e) c).2.1
          (jsonStep (d, s, e) c).2.2 (c :: acc) := by
  rw [jsonScan]
  simp only [jsonStep]
  split_ifs <;> simp_all
  all_goals omega

/-- A successful scan is unaffected by appending text after the consumed
span. -/
theorem jsonScan_append (post : GoString) :
    ∀ (cs : GoString) (d : Int) (s e : Bool) (acc r : GoString),
      jsonScan cs d s e acc = some r →
      jsonScan (cs ++ post) d s e acc = some r := by
  intro cs
  induction cs with
  | nil =>
    intro d s e acc r h
    simp [jsonScan] at h
  | cons c rest ih =>
    intro d s e acc r h
    rw [jsonScan] at h
    rw [List.cons_append, jsonScan]
    split_ifs at h ⊢ <;> first | exact h | exact ih _ _ _ _ _ h

/-- Scanning a string whose spec-side state trace stays at positive depth
until reaching zero exactly at the end consumes the whole string. -/
theorem jsonScan_of_states :
    ∀ (cs : GoString) (st : Int × Bool × Bool) (acc : GoString),
      1 ≤ st.1 →
      (∀ st' ∈ (jsonStates st cs).dropLast, 1 ≤ st'.1) →
      ((jsonStates st cs).getLast?.map Prod.fst = some 0) →
      jsonScan cs st.1 st.2.1 st.2.2 acc = some (acc.reverse ++ cs) := by
  intro cs
  induction cs with
  | nil =>
    intro st acc _ _ hlast
    simp [jsonStates] at hlast
  | cons c rest ih =>
    intro st acc h1 hmid hlast
    rcases st with ⟨d, s, e⟩
    rw [jsonStates] at hmid hlast
    rw [jsonScan_cons_step c rest d s e acc h1]
    rcases rest with _ | ⟨c2, rest2⟩
    · rw [jsonStates] at hlast
      simp only [List.getLast?_singleton] at hlast
      simp only [Option.map_some', Option.some.injEq] at hlast
      rw [if_pos hlast]
    · have hne : jsonStates (jsonStep (d, s, e) c) (c2 :: rest2) ≠ [] := by
        rw [jsonStates]
        exact List.cons_ne_nil _ _
      have hmid1 : 1 ≤ (jsonStep (d, s, e) c).1 := by
        apply hmid
        rw [List.dropLast_cons_of_ne_nil hne]
        exact List.mem_cons_self _ _
      have hmidrest : ∀ st' ∈ (jsonStates (jsonStep (d, s, e) c) (c2 :: rest2)).dropLast,
          1 ≤ st'.1 := by
        intro st' hst'
        apply hmid
        rw [List.dropLast_cons_of_ne_nil hne]
        exact List.mem_cons_of_mem _ hst'
      have hlastrest :
          ((jsonStates (jsonStep (d, s, e) c) (c2 :: rest2)).getLast?.map Prod.fst) =
            some 0 := by
        rcases hE : jsonStates (jsonStep (d, s, e) c) (c2 :: rest2) with _ | ⟨x, xs⟩
        · exact absurd hE hne
        · rw [hE, List.getLast?_cons_cons] at hlast
          exact hlast
      rw [if_neg (by omega)]
      have := ih (jsonStep (d, s, e) c) (c :: acc) hmid1 hmidrest hlastrest
      rw [this]
      simp

/-- Scanning a spec-balanced object from the initial state consumes exactly
the object. -/
theorem jsonScan_balanced (obj : GoString) (hobj : specBalancedJsonObject obj) :
    jsonScan obj 0 false false [] = some obj := by
  obtain ⟨hhead, hmid, hlast⟩ := hobj
  rcases obj with _ | ⟨c0, rest⟩
  · simp at hhead
  · rw [List.head?_cons, Option.some.injEq] at hhead
    subst hhead
    have hstep : jsonScan ('{' :: rest) 0 false false [] =
        jsonScan rest 1 false false ['{'] := by
      rw [jsonScan]
      simp
    have hst : jsonStep (0, false, false) '{' = (1, false, false) := by
      simp [jsonStep]
    rw [jsonStates] at hmid hlast
    rw [hst] at hmid hlast
    rw [hstep]
    rcases rest with _ | ⟨c2, rest2⟩
    · rw [jsonStates] at hlast
      simp at hlast
    · have hne : jsonStates (1, false, false) (c2 :: rest2) ≠ [] := by
        rw [jsonStates]
        exact List.cons_ne_nil _ _
      have hmidrest : ∀ st' ∈ (jsonStates ((1 : Int), false, false) (c2 :: rest2)).dropLast,
          1 ≤ st'.1 := by
        intro st' hst'
        apply hmid
        rw [List.dropLast_cons_of_ne_nil hne]
        exact List.mem_cons_of_mem _ hst'
      have hlastrest :
          ((jsonStates ((1 : Int), false, false) (c2 :: rest2)).getLast?.map Prod.fst) =
            some 0 := by
        rcases hE : jsonStates ((1 : Int), false, false) (c2 :: rest2) with _ | ⟨x, xs⟩
        · exact absurd hE hne
        · rw [hE, List.getLast?_cons_cons] at hlast
          exact hlast
      have := jsonScan_of_states (c2 :: rest2) (1, false, false) ['{'] (by norm_num)
        hmidrest hlastrest
      rw [this]
      simp

/-- findFirstJSONObject extracts a spec-balanced object whose preceding
prose contains no opening brace, whatever follows it. -/
theorem findFirstJSONObject_extracts (pre obj post : GoString)
    (hpre : '{' ∉ pre) (hobj : specBalancedJsonObject obj) :
    findFirstJSONObject (pre ++ (obj ++ post)) = obj := by
  have hscan : jsonScan (obj ++ post) 0 false false [] = some obj :=
    jsonScan_append post obj 0 false false [] obj (jsonScan_balanced obj hobj)
  have hpreall : pre.dropWhile (· != '{') = [] := by
    rw [List.dropWhile_eq_nil_iff]
    intro x hx
    simp only [bne_iff_ne, ne_eq, decide_not, Bool.not_eq_eq_eq_not, Bool.not_false,
      decide_eq_true_eq]
    exact fun hEq => hpre (hEq ▸ hx)
  have hhead := hobj.1
  rcases hO : obj with _ | ⟨c0, rest⟩
  · rw [hO] at hhead
    simp at hhead
  · rw [hO] at hhead hscan
    rw [List.head?_cons, Option.some.injEq] at hhead
    subst hhead
    rw [findFirstJSONObject]
    have hdrop : (pre ++ (('{' :: rest) ++ post)).dropWhile (· != '{') =
        '{' :: (rest ++ post) := by
      rw [List.dropWhile_append, hpreall]
      simp only [List.isEmpty_nil, if_true]
      rw [List.cons_append, List.dropWhile_cons]
      simp
    rw [hdrop]
    show (jsonScan ('{' :: (rest ++ post)) 0 false false []).getD [] = '{' :: rest
    rw [List.cons_append] at hscan
    rw [hscan]
    rfl

/-- C8 counterexample: for `{"a":1} x` — exactly one balanced top-level
object, no preceding prose, trailing prose — the selected payload is the
whole trimmed text, not the object span (and Go's json.Unmarshal then
rejects the trailing prose, failing the parse). -/
theorem decisionPayload_trailing_prose :
    specBalancedJsonObject (goStr "\x7b\"a\":1\x7d") ∧
    decisionPayload (goStr "\x7b\"a\":1\x7d x") = some (goStr "\x7b\"a\":1\x7d x") ∧
    goStr "\x7b\"a\":1\x7d x" ≠ goStr "\x7b\"a\":1\x7d" := by
  refine ⟨by decide, ?_, by decide⟩
  decide

/-- C8 (amended): when non-empty prose precedes the single balanced
top-level object (so the trimmed text does not itself start with a brace),
decision parsing extracts exactly the object span — honoring string-quote
and escape state — and unmarshals exactly that span; when the object is at
the start of the text, the whole trimmed text (trailing prose included) is
passed to the unmarshaler instead. -/
theorem decision_parse_extraction (unmarshal : GoString → Option RawDecisionObj)
    (pre obj post : GoString)
    (hpre_ne : pre ≠ []) (hpre : '{' ∉ pre)
    (htrim : goTrimSpace (pre ++ (obj ++ post)) = pre ++ (obj ++ post))
    (hobj : specBalancedJsonObject obj) :
    decisionPayload (pre ++ (obj ++ post)) = some obj ∧
    parseDecisionJSON unmarshal (pre ++ (obj ++ post)) =
      (unmarshal obj).map decisionFromRaw := by
  have hpay : decisionPayload (pre ++ (obj ++ post)) = some obj := by
    rw [decisionPayload]
    rw [htrim]
    rcases hp : pre with _ | ⟨p0, pt⟩
    · exact absurd hp hpre_ne
    · have hp0 : p0 ≠ '{' := by
        intro hEq
        exact hpre (by rw [hp, hEq]; exact List.mem_cons_self _ _)
      rw [if_neg (by simp)]
      have hsw : goStartsWith (goStr "\x7b") (p0 :: (pt ++ (obj ++ post))) = false := by
        simp only [goStartsWith, goStr]
        show (('{' == p0) && List.isPrefixOf [] (pt ++ (obj ++ post))) = false
        rw [beq_eq_false_iff_ne.mpr (Ne.symm hp0)]
        rfl
      rw [if_neg (by simp [hsw])]
      have hext := findFirstJSONObject_extracts (p0 :: pt) obj post (hp ▸ hpre) hobj
      rw [hext]
      rcases hOb : obj with _ | _
      · rw [hOb] at hobj
        rcases hobj with ⟨hh, -⟩
        simp at hh
      · rfl
  refine ⟨hpay, ?_⟩
  rcases hU : unmarshal obj with _ | o <;>
    simp [parseDecisionJSON, hpay, hU]

/-- C8 witness: extraction from prose-wrapped text whose object contains an
escaped quote and an embedded brace inside a string value. -/
theorem decision_parse_extraction_witness :
    decisionPayload
        (goStr "note: " ++ (goStr "\x7b\"answer\":\"o\\\"k\x7d\"\x7d" ++ goStr " end")) =
      some (goStr "\x7b\"answer\":\"o\\\"k\x7d\"\x7d") ∧
    parseDecisionJSON (fun _ => none)
        (goStr "note: " ++ (goStr "\x7b\"answer\":\"o\\\"k\x7d\"\x7d" ++ goStr " end")) =
      ((fun (_ : GoString) => (none : Option RawDecisionObj))
          (goStr "\x7b\"answer\":\"o\\\"k\x7d\"\x7d")).map decisionFromRaw :=
  decision_parse_extraction (fun _ => none) (goStr "note: ")
    (goStr "\x7b\"answer\":\"o\\\"k\x7d\"\x7d") (goStr " end")
    (by decide) (by decide) (by decide) (by decide)

/-- Action normalization always lands in the four-kind vocabulary. -/
theorem normalizeParsed_action (parsed : DecisionResult) (r : AskResult) :
    (normalizeParsed parsed r).action = goStr "answer" ∨
    (normalizeParsed parsed r).action = goStr "run_plugin" ∨
    (normalizeParsed parsed r).action = goStr "run_tool" ∨
    (normalizeParsed parsed r).action = goStr "create_function" := by
  unfold normalizeParsed
  by_cases h : parsed.action ≠ goStr "run_plugin" ∧ parsed.action ≠ goStr "run_tool" ∧
      parsed.action ≠ goStr "create_function"
  · rw [if_pos h]
    exact Or.inl rfl
  · rw [if_neg h]
    push_neg at h
    by_cases h1 : parsed.action = goStr "run_plugin"
    · exact Or.inr (Or.inl h1)
    · by_cases h2 : parsed.action = goStr "run_tool"
      · exact Or.inr (Or.inr (Or.inl h2))
      · exact Or.inr (Or.inr (Or.inr (h h1 h2)))

/-- C5: on decision parse failure the pipeline retries exactly once via the
repair prompt under the same options; when the repair round-trip also fails
(either the call errors or its reply still does not parse), the pipeline
returns the degraded decision — action "answer" with the original raw reply
as the answer — and no error; the call trace is exactly the initial call
followed by one repair call with identical options. -/
theorem decision_repair_fallback (unmarshal : GoString → Option RawDecisionObj)
    (ask : GoString → AskOptions → Option AskResult)
    (userPrompt pluginCatalog toolCatalog : GoString) (opts : AskOptions)
    (envContext : GoString) (raw : AskResult)
    (hp : goTrimSpace userPrompt ≠ [])
    (hask : ask (buildDecisionUserPrompt (goTrimSpace userPrompt) envContext)
        (decisionOpts opts (buildDecisionSystemPrompt pluginCatalog toolCatalog)) =
      some raw)
    (hfail : parseDecisionJSON unmarshal raw.text = none)
    (hrepair : ∀ repaired, ask (repairPromptText raw.text)
        (decisionOpts opts (buildDecisionSystemPrompt pluginCatalog toolCatalog)) =
          some repaired →
        parseDecisionJSON unmarshal repaired.text = none) :
    DecideWithPlugins unmarshal ask userPrompt pluginCatalog toolCatalog opts
        envContext =
      (some { action := goStr "answer", answer := raw.text,
              provider := raw.provider, model := raw.model },
        [(buildDecisionUserPrompt (goTrimSpace userPrompt) envContext,
            decisionOpts opts (buildDecisionSystemPrompt pluginCatalog toolCatalog)),
          (repairPromptText raw.text,
            decisionOpts opts (buildDecisionSystemPrompt pluginCatalog toolCatalog))]) := by
  simp only [DecideWithPlugins]
  rw [if_neg hp, hask]
  dsimp only
  rw [hfail]
  dsimp only
  rcases hR : ask (repairPromptText raw.text)
      (decisionOpts opts (buildDecisionSystemPrompt pluginCatalog toolCatalog))
      with _ | repaired
  · rfl
  · dsimp only
    rw [hrepair repaired hR]

/-- C5 witness: an oracle whose replies never parse degrades to an answer
decision carrying the raw text, after exactly one repair call. -/
theorem decision_repair_fallback_witness :
    DecideWithPlugins (fun _ => none)
        (fun _ _ => some { text := goStr "hello", provider := goStr "p",
                           model := goStr "m" })
        (goStr "hi") (goStr "cat") (goStr "tools") ({}) (goStr "env") =
      (some { action := goStr "answer",
              answer := ({ text := goStr "hello", provider := goStr "p",
                           model := goStr "m" } : AskResult).text,
              provider := goStr "p", model := goStr "m" },
        [(buildDecisionUserPrompt (goTrimSpace (goStr "hi")) (goStr "env"),
            decisionOpts ({}) (buildDecisionSystemPrompt (goStr "cat") (goStr "tools"))),
          (repairPromptText ({ text := goStr "hello", provider := goStr "p",
                               model := goStr "m" } : AskResult).text,
            decisionOpts ({}) (buildDecisionSystemPrompt (goStr "cat") (goStr "tools")))]) :=
  decision_repair_fallback (fun _ => none)
    (fun _ _ => some { text := goStr "hello", provider := goStr "p", model := goStr "m" })
    (goStr "hi") (goStr "cat") (goStr "tools") ({}) (goStr "env")
    ({ text := goStr "hello", provider := goStr "p", model := goStr "m" })
    (by decide) rfl (by decide)
    (fun repaired hr => by
      injection hr with h
      rw [← h]
      decide)

/-- C7: every decision the pipeline returns has an action in
{answer, run_plugin, run_tool, create_function}; normalization maps
anything outside the three dispatchable kinds to "answer"; and the parsed
action is the lowercased, trimmed action field of the unmarshalled object
(an absent field is the empty string, hence normalizes to "answer"). -/
theorem decision_action_vocabulary (unmarshal : GoString → Option RawDecisionObj)
    (ask : GoString → AskOptions → Option AskResult)
    (userPrompt pluginCatalog toolCatalog : GoString) (opts : AskOptions)
    (envContext : GoString) :
    (∀ d, (DecideWithPlugins unmarshal ask userPrompt pluginCatalog toolCatalog opts
        envContext).1 = some d →
      (d.action = goStr "answer" ∨ d.action = goStr "run_plugin" ∨
        d.action = goStr "run_tool" ∨ d.action = goStr "create_function")) ∧
    (∀ parsed r, parsed.action ≠ goStr "run_plugin" →
      parsed.action ≠ goStr "run_tool" → parsed.action ≠ goStr "create_function" →
      (normalizeParsed parsed r).action = goStr "answer") ∧
    (∀ text parsed, parseDecisionJSON unmarshal text = some parsed →
      ∃ payload obj, decisionPayload text = some payload ∧
        unmarshal payload = some obj ∧
        parsed.action = goToLower (goTrimSpace obj.action)) := by
  refine ⟨?_, ?_, ?_⟩
  · intro d hd
    by_cases hp : goTrimSpace userPrompt = []
    · simp [DecideWithPlugins, hp] at hd
    · simp only [DecideWithPlugins, if_neg hp] at hd
      rcases hA : ask (buildDecisionUserPrompt (goTrimSpace userPrompt) envContext)
          (decisionOpts opts (buildDecisionSystemPrompt pluginCatalog toolCatalog))
          with _ | raw
      · rw [hA] at hd
        simp at hd
      · rw [hA] at hd
        simp only at hd
        rcases hP : parseDecisionJSON unmarshal raw.text with _ | parsed
        · rw [hP] at hd
          simp only at hd
          rcases hR : ask (repairPromptText raw.text)
              (decisionOpts opts (buildDecisionSystemPrompt pluginCatalog toolCatalog))
              with _ | repaired
          · rw [hR] at hd
            simp only [Option.some.injEq] at hd
            rw [← hd]
            exact Or.inl rfl
          · rw [hR] at hd
            simp only at hd
            rcases hP2 : parseDecisionJSON unmarshal repaired.text with _ | parsed2
            · rw [hP2] at hd
              simp only [Option.some.injEq] at hd
              rw [← hd]
              exact Or.inl rfl
            · rw [hP2] at hd
              simp only [Option.some.injEq] at hd
              rw [← hd]
              exact normalizeParsed_action parsed2 repaired
        · rw [hP] at hd
          simp only [Option.some.injEq] at hd
          rw [← hd]
          exact normalizeParsed_action parsed raw
  · intro parsed r h1 h2 h3
    unfold normalizeParsed
    rw [if_pos ⟨h1, h2, h3⟩]
  · intro text parsed hparse
    rw [parseDecisionJSON] at hparse
    rcases hP : decisionPayload text with _ | payload
    · rw [hP] at hparse
      exact absurd hparse (by simp)
    · rw [hP] at hparse
      simp only at hparse
      rcases hU : unmarshal payload with _ | obj
      · rw [hU] at hparse
        exact absurd hparse (by simp)
      · rw [hU] at hparse
        simp only [Option.some.injEq] at hparse
        exact ⟨payload, obj, rfl, hU, by rw [← hparse]; rfl⟩

/-- C7 witness: an unrecognized action normalizes to "answer". -/
theorem decision_action_vocabulary_witness :
    (normalizeParsed ({ action := goStr "launch_rocket" })
        ({ provider := goStr "p" })).action = goStr "answer" :=
  (decision_action_vocabulary (fun _ => none) (fun _ _ => none) [] [] [] ({}) []).2.1
    ({ action := goStr "launch_rocket" }) ({ provider := goStr "p" })
    (by decide) (by decide) (by decide)

/-- C4: after a Set for directory D with its fingerprint, an untouched
directory and file set reads back as a hit returning the stored value;
changing the recorded stamp of any fingerprinted file — or of the directory
itself — makes the next read a miss. -/
theorem catalog_cache_fingerprint
    (cache : List (GoString × EntryListCacheValue)) (key dirPath : GoString)
    (items : List Entry) (dirStamp : Int) (fileStamps : List (GoString × Int))
    (fs fs' : GoFS) :
    (fingerprintsValid fs dirPath dirStamp fileStamps = true →
      getCachedEntryList (setCachedEntryList cache key dirPath items dirStamp fileStamps)
        key fs = some items) ∧
    (∀ p w, (p, w) ∈ fileStamps → statStamp fs' p ≠ w →
      getCachedEntryList (setCachedEntryList cache key dirPath items dirStamp fileStamps)
        key fs' = none) ∧
    (0 ≤ dirStamp → statStamp fs' dirPath ≠ dirStamp →
      getCachedEntryList (setCachedEntryList cache key dirPath items dirStamp fileStamps)
        key fs' = none) := by
  have hlook : List.lookup key
      (setCachedEntryList cache key dirPath items dirStamp fileStamps) =
      some ⟨dirPath, items, dirStamp, cloneFileStamps fileStamps⟩ :=
    lookup_cons_self _ _ _
  refine ⟨?_, ?_, ?_⟩
  · intro hv
    rw [getCachedEntryList, hlook]
    dsimp only
    simp only [cloneFileStamps]
    rw [if_pos hv]
  · intro p w hmem hne
    rw [getCachedEntryList, hlook]
    dsimp only
    simp only [cloneFileStamps]
    rw [if_neg ?_]
    rw [fingerprintsValid]
    have hall : fileStamps.all
        (fun pw => statStamp fs' pw.1 == pw.2) = false := by
      rw [List.all_eq_false]
      exact ⟨(p, w), hmem, by simpa using hne⟩
    rw [if_neg (by simp [hall])]
    simp
  · intro hd hne
    rw [getCachedEntryList, hlook]
    dsimp only
    simp only [cloneFileStamps]
    rw [if_neg ?_]
    rw [fingerprintsValid]
    by_cases hall : fileStamps.all
        (fun pw => statStamp fs' pw.1 == pw.2) = true
    · rw [if_pos hall, if_pos hd]
      simp [hne]
    · rw [if_neg hall]
      simp
  
/-- C4 witness: a one-file fingerprint hits on the untouched filesystem and
misses after the file's stamp changes. -/
theorem catalog_cache_fingerprint_witness :
    getCachedEntryList
        (setCachedEntryList [] (goStr "d|with-functions") (goStr "d")
          [{ name := goStr "fn" }] 7 [(goStr "d/a.ps1", 5)])
        (goStr "d|with-functions")
        (fun p => if p = goStr "d" then some 7 else
          if p = goStr "d/a.ps1" then some 5 else none) =
      some [{ name := goStr "fn" }] ∧
    getCachedEntryList
        (setCachedEntryList [] (goStr "d|with-functions") (goStr "d")
          [{ name := goStr "fn" }] 7 [(goStr "d/a.ps1", 5)])
        (goStr "d|with-functions")
        (fun p => if p = goStr "d" then some 7 else
          if p = goStr "d/a.ps1" then some 6 else none) = none :=
  ⟨(catalog_cache_fingerprint [] (goStr "d|with-functions") (goStr "d")
      [{ name := goStr "fn" }] 7 [(goStr "d/a.ps1", 5)]
      (fun p => if p = goStr "d" then some 7 else
        if p = goStr "d/a.ps1" then some 5 else none)
      (fun p => if p = goStr "d" then some 7 else
        if p = goStr "d/a.ps1" then some 6 else none)).1 (by decide),
    (catalog_cache_fingerprint [] (goStr "d|with-functions") (goStr "d")
      [{ name := goStr "fn" }] 7 [(goStr "d/a.ps1", 5)]
      (fun p => if p = goStr "d" then some 7 else
        if p = goStr "d/a.ps1" then some 5 else none)
      (fun p => if p = goStr "d" then some 7 else
        if p = goStr "d/a.ps1" then some 6 else none)).2.1
      (goStr "d/a.ps1") 5 (by decide) (by decide)⟩

/-- C9 (code bug): the first cached read hits and returns an Info whose
Sources/Parameters/Examples references are freshly allocated, but whose
ParamDetails reference is the stored value's own backing array (reference
0); after the caller writes through the returned ParamDetails slice, a
subsequent cached read returns the mutated parameter list instead of the
originally stored one — cloneInfo fails to copy ParamDetails, contradicting
the defensive-copy contract. -/
theorem info_cache_mutation_visible :
    c9Get1.1 =
      some { name := goStr "fn", sources := 4, parameters := 5,
             examples := 6, paramDetails := 0 } ∧
    (List.lookup c9Key c9Set.1).map (fun v => v.info.paramDetails) = some 0 ∧
    readDetailArray c9Get1.2 c9Returned.paramDetails = [c9Detail] ∧
    c9Get2.1.map (fun i => readDetailArray c9Get2.2 i.paramDetails) =
      some [c9DetailMutated] ∧
    [c9DetailMutated] ≠ [c9Detail] := by
  refine ⟨?_, ?_, ?_, ?_, by decide⟩ <;> decide

end DmCli
